import Mathlib

/-!
Shallow embedding of the IgnisX core contracts:
`LitProtocolDelegate` (session authority), `PortfolioManager` (policy store)
and `CrossChainRebalancer` (rebalance orchestrator), translated from the
Solidity sources under `packages/hardhat/contracts`.

Conventions of the embedding:
* `address`, `uint256`, `bytes32` and `bytes` values are modelled as `Nat`
  (`0` is the null address).  Solidity 0.8 arithmetic is checked, so the
  unchecked-wraparound case cannot occur; no operation modelled here relies
  on overflow, so plain `Nat` arithmetic is faithful.
* Solidity mappings are total functions with the zero-initialised struct as
  default, updated pointwise by `upd`.
* `keccak256(abi.encodePacked(...))` is modelled injectively: the hash of a
  tuple of fields is the tuple itself (a dedicated structure), reflecting
  collision resistance.  The hash of an ECDSA signature is the signature
  value itself.
* ECDSA recovery over the eth-signed-message hash is an arbitrary parameter
  `recover : Digest → Nat → Nat`; the contracts only consume it.
* A reverting call is an `Except Err _` error; `runTx` packages the
  Solidity transaction semantics of reverts (state fully unchanged).
* `block.timestamp` (`now`) and `block.number` are explicit parameters,
  and `msg.sender` is an explicit `caller` parameter.
-/

set_option maxRecDepth 4000
set_option linter.unusedVariables false

namespace IgnisX

/-- Pointwise update of a total function, modelling a Solidity mapping write. -/
def upd {α β : Type} [DecidableEq α] (m : α → β) (k : α) (v : β) : α → β :=
  fun x => if x = k then v else m x

/-- Revert reasons of the three contracts, one constructor per distinct
`require` message. -/
inductive Err where
  | sessionNotActive            -- "Session not active"
  | sessionExpired              -- "Session expired"
  | maxOperationsExceeded       -- "Max operations exceeded"
  | notAuthorizedDelegate       -- "Not authorized delegate"
  | invalidUser                 -- "Invalid user"
  | invalidDelegate             -- "Invalid delegate"
  | invalidExpiry               -- "Invalid expiry"
  | invalidMaxOperations        -- "Invalid max operations"
  | notAuthorized               -- "Not authorized"
  | invalidNonce                -- "Invalid nonce"
  | signatureAlreadyUsed        -- "Signature already used"
  | invalidSignature            -- "Invalid signature"
  | invalidInputLength          -- "Invalid input length"
  | noOperationsProvided        -- "No operations provided"
  | exceedsMaxOperations        -- "Exceeds max operations"
  | notContractOwner            -- Ownable: "caller is not the owner"
  | notPortfolioOwner           -- "Not portfolio owner"
  | invalidPercentage           -- "Invalid percentage"
  | portfolioDoesNotExist       -- "Portfolio does not exist"
  | portfolioAlreadyExists      -- "Portfolio already exists"
  | portfolioEmpty              -- "Portfolio must have at least one asset"
  | invalidTokenAddress         -- "Invalid token address"
  | targetPercentageZero        -- "Target percentage must be > 0"
  | totalPercentageNot100       -- "Total percentage must equal 100%"
  | assetAlreadyExists          -- "Asset already exists"
  | assetNotFound               -- "Asset not found"
  | invalidDelegateAddress      -- "Invalid delegate address"
  | maxSlippageTooHigh          -- "Max slippage too high"
  | thresholdTooHigh            -- "Rebalance threshold too high"
  | cooldownTooShort            -- "Cooldown period too short"
  | delegationNotActive         -- "Delegation not active"
  | cooldownNotMet              -- "Cooldown period not met"
  | invalidAllocationLength     -- "Invalid allocation length"
  | notAuthorizedAgent          -- "Not authorized agent"
  | invalidTotalValue           -- "Invalid total value"
  | invalidAction               -- "Invalid action"
  | actionAlreadyExecuted       -- "Action already executed"
  | invalidSwapIndex            -- "Invalid swap index"
  | slippageTooHigh             -- "Slippage too high"
  | invalidBridgeIndex          -- "Invalid bridge index"
  | invalidBridgeAmount         -- "Invalid bridge amount"
deriving DecidableEq, Repr

/-- Solidity transaction semantics: a reverting call leaves the state
unchanged and surfaces the revert reason. -/
def runTx {σ : Type} (s : σ) : Except Err σ → σ × Option Err
  | .ok s' => (s', none)
  | .error e => (s, some e)

/-- Evaluates to `true` iff the call did not revert. -/
def callOk {σ : Type} : Except Err σ → Bool
  | .ok _ => true
  | .error _ => false

/-! ## LitProtocolDelegate -/
/-- Models `LitProtocolDelegate.DelegationSession`. -/
structure DelegationSession where
  user : Nat
  delegate : Nat
  nonce : Nat
  expiry : Nat
  policyHash : Nat
  isActive : Bool
  maxOperations : Nat
  operationsUsed : Nat
deriving DecidableEq, Repr

/-- The zero-initialised session a Solidity mapping returns for an
unknown id. -/
def emptySession : DelegationSession := ⟨0, 0, 0, 0, 0, false, 0, 0⟩

/-- Models `LitProtocolDelegate.SignedOperation`; `data` and `signature` bytes are
modelled as `Nat`. -/
structure SignedOperation where
  user : Nat
  delegate : Nat
  nonce : Nat
  operationType : Nat
  data : Nat
  timestamp : Nat
  signature : Nat
deriving DecidableEq, Repr

/-- Injective model of the session id
`keccak256(abi.encodePacked(user, delegate, nonce, block.timestamp))`. -/
structure SessionId where
  user : Nat
  delegate : Nat
  nonce : Nat
  timestamp : Nat
deriving DecidableEq, Repr

/-- Injective model of the message hash
`keccak256(abi.encodePacked(user, delegate, nonce, operationType, data,
timestamp, policyHash))`. -/
structure Digest where
  user : Nat
  delegate : Nat
  nonce : Nat
  operationType : Nat
  data : Nat
  timestamp : Nat
  policyHash : Nat
deriving DecidableEq, Repr

/-- The digest an operation is checked against inside a session with the
given policy hash (source lines 134-142 of `LitProtocolDelegate`). -/
def digestOf (op : SignedOperation) (policyHash : Nat) : Digest :=
  ⟨op.user, op.delegate, op.nonce, op.operationType, op.data, op.timestamp, policyHash⟩

/-- Storage of `LitProtocolDelegate`. -/
structure LitState where
  delegationSessions : SessionId → DelegationSession
  userNonces : Nat → Nat
  usedSignatures : Nat → Bool
  contractOwner : Nat

/-- Models `createDelegationSession(user, delegate, expiry, policyHash,
maxOperations)`. -/
def createDelegationSession (s : LitState) (now user delegate expiry policyHash
    maxOperations : Nat) : Except Err (LitState × SessionId) :=
  if user = 0 then .error .invalidUser
  else if delegate = 0 then .error .invalidDelegate
  else if ¬ expiry > now then .error .invalidExpiry
  else if ¬ maxOperations > 0 then .error .invalidMaxOperations
  else
    let nonce := s.userNonces user
    let sid : SessionId := ⟨user, delegate, nonce, now⟩
    .ok ({ s with
            userNonces := upd s.userNonces user (nonce + 1),
            delegationSessions := upd s.delegationSessions sid
              ⟨user, delegate, nonce, expiry, policyHash, true, maxOperations, 0⟩ },
         sid)

/-- Models `revokeDelegationSession(sessionId)`. -/
def revokeDelegationSession (s : LitState) (caller : Nat) (sid : SessionId) :
    Except Err LitState :=
  let sess := s.delegationSessions sid
  if ¬ (sess.user = caller ∨ caller = s.contractOwner) then .error .notAuthorized
  else if ¬ sess.isActive then .error .sessionNotActive
  else .ok { s with delegationSessions :=
              (upd s.delegationSessions sid { sess with isActive := false }) }

/-- Models `verifySignedOperation(sessionId, operation)`.  `caller` mirrors
`msg.sender`, which the source never reads in this function.  Returns the
post-state together with the `valid` flag. -/
def verifySignedOperation (recover : Digest → Nat → Nat) (s : LitState)
    (now caller : Nat) (sid : SessionId) (op : SignedOperation) :
    Except Err (LitState × Bool) :=
  let sess := s.delegationSessions sid
  -- modifier validSession
  if ¬ sess.isActive then .error .sessionNotActive
  else if ¬ now ≤ sess.expiry then .error .sessionExpired
  else if ¬ sess.operationsUsed < sess.maxOperations then .error .maxOperationsExceeded
  -- operation belongs to this session
  else if ¬ op.user = sess.user then .error .invalidUser
  else if ¬ op.delegate = sess.delegate then .error .invalidDelegate
  else if ¬ op.nonce = sess.nonce then .error .invalidNonce
  else
    let signer := recover (digestOf op sess.policyHash) op.signature
    let valid := decide (signer = sess.user)
    -- replay check on keccak256(operation.signature), then mark used
    if s.usedSignatures op.signature then .error .signatureAlreadyUsed
    else .ok ({ s with usedSignatures := upd s.usedSignatures op.signature true }, valid)

/-- Models `executeOperation(sessionId, operation, operationHash)`: delegate-only,
re-verifies, then increments `operationsUsed` (the session nonce is not
touched by the source). -/
def executeOperation (recover : Digest → Nat → Nat) (s : LitState)
    (now caller : Nat) (sid : SessionId) (op : SignedOperation) :
    Except Err LitState :=
  if ¬ caller = (s.delegationSessions sid).delegate then .error .notAuthorizedDelegate
  else
    match verifySignedOperation recover s now caller sid op with
    | .error e => .error e
    | .ok (s', valid) =>
      if valid then
        let sess := s'.delegationSessions sid
        .ok { s' with delegationSessions :=
              (upd s'.delegationSessions sid
                { sess with operationsUsed := sess.operationsUsed + 1 }) }
      else .error .invalidSignature

/-- The verification loop of `batchExecuteOperations`: every operation must
verify with `valid = true`, threading the marked-signature state. -/
def verifyLoop (recover : Digest → Nat → Nat) (now caller : Nat) (sid : SessionId) :
    LitState → List SignedOperation → Except Err LitState
  | s, [] => .ok s
  | s, op :: rest =>
    match verifySignedOperation recover s now caller sid op with
    | .error e => .error e
    | .ok (s', valid) =>
      if valid then verifyLoop recover now caller sid s' rest
      else .error .invalidSignature

/-- Models `batchExecuteOperations(sessionId, operations, operationHashes)`;
`numHashes` stands for `operationHashes.length`. -/
def batchExecuteOperations (recover : Digest → Nat → Nat) (s : LitState)
    (now caller : Nat) (sid : SessionId) (ops : List SignedOperation)
    (numHashes : Nat) : Except Err LitState :=
  if ¬ caller = (s.delegationSessions sid).delegate then .error .notAuthorizedDelegate
  else if ¬ ops.length = numHashes then .error .invalidInputLength
  else if ¬ ops.length > 0 then .error .noOperationsProvided
  else
    let sess := s.delegationSessions sid
    if ¬ sess.operationsUsed + ops.length ≤ sess.maxOperations then
      .error .exceedsMaxOperations
    else
      match verifyLoop recover now caller sid s ops with
      | .error e => .error e
      | .ok s' =>
        let sess' := s'.delegationSessions sid
        .ok { s' with delegationSessions :=
              (upd s'.delegationSessions sid
                { sess' with operationsUsed := sess'.operationsUsed + ops.length }) }

/-- Models `emergencyRevokeUserSessions(user)`: owner-only and, per the source, a
state no-op (it only emits an event). -/
def emergencyRevokeUserSessions (s : LitState) (caller _user : Nat) :
    Except Err LitState :=
  if ¬ caller = s.contractOwner then .error .notContractOwner
  else .ok s

/-- One external state-mutating entry point of `LitProtocolDelegate`. -/
inductive LitCall where
  | create (now user delegate expiry policyHash maxOperations : Nat)
  | revoke (caller : Nat) (sid : SessionId)
  | verify (now caller : Nat) (sid : SessionId) (op : SignedOperation)
  | execute (now caller : Nat) (sid : SessionId) (op : SignedOperation)
  | batch (now caller : Nat) (sid : SessionId) (ops : List SignedOperation) (numHashes : Nat)
  | emergencyRevoke (caller user : Nat)

/-- Transaction-level step of `LitProtocolDelegate`: reverts leave the state
unchanged. -/
def litStep (recover : Digest → Nat → Nat) (s : LitState) : LitCall → LitState
  | .create now user delegate expiry policyHash maxOperations =>
    match createDelegationSession s now user delegate expiry policyHash maxOperations with
    | .ok (s', _) => s'
    | .error _ => s
  | .revoke caller sid => (runTx s (revokeDelegationSession s caller sid)).1
  | .verify now caller sid op =>
    match verifySignedOperation recover s now caller sid op with
    | .ok (s', _) => s'
    | .error _ => s
  | .execute now caller sid op => (runTx s (executeOperation recover s now caller sid op)).1
  | .batch now caller sid ops numHashes =>
    (runTx s (batchExecuteOperations recover s now caller sid ops numHashes)).1
  | .emergencyRevoke caller user => (runTx s (emergencyRevokeUserSessions s caller user)).1

/-! ## PortfolioManager -/
/-- Models `PortfolioManager.Asset`. -/
structure Asset where
  tokenAddress : Nat
  chainId : Nat
  targetPercentage : Nat
  isActive : Bool
deriving DecidableEq, Repr

/-- Models `PortfolioManager.Portfolio`. -/
structure Portfolio where
  assets : List Asset
  totalValue : Nat
  lastRebalance : Nat
  isActive : Bool
deriving DecidableEq, Repr

/-- The zero-initialised portfolio of an unknown owner. -/
def emptyPortfolio : Portfolio := ⟨[], 0, 0, false⟩

/-- Models `PortfolioManager.DelegationPolicy`. -/
structure DelegationPolicy where
  delegate : Nat
  maxSlippage : Nat
  maxRebalanceAmount : Nat
  rebalanceThreshold : Nat
  cooldownPeriod : Nat
  isActive : Bool
deriving DecidableEq, Repr

/-- The zero-initialised policy of an unknown owner. -/
def emptyPolicy : DelegationPolicy := ⟨0, 0, 0, 0, 0, false⟩

/-- Storage of `PortfolioManager` (`pmOwner` is the `Ownable` owner). -/
structure PMState where
  portfolios : Nat → Portfolio
  delegationPolicies : Nat → DelegationPolicy
  userBalances : Nat → Nat → Nat
  pmOwner : Nat

/-- The per-element validation loop shared by `createPortfolio` and
`updatePortfolio` (token address non-null, target percentage positive),
with its in-order revert reasons. -/
def checkAssets : List Asset → Except Err Unit
  | [] => .ok ()
  | a :: rest =>
    if a.tokenAddress = 0 then .error .invalidTokenAddress
    else if a.targetPercentage = 0 then .error .targetPercentageZero
    else checkAssets rest

/-- Models `totalPercentage` accumulated by the validation loop. -/
def totalBps (assets : List Asset) : Nat :=
  (assets.map (fun a => a.targetPercentage)).sum

/-- Models `createPortfolio(user, assets)`. -/
def createPortfolio (s : PMState) (caller user : Nat) (assets : List Asset) :
    Except Err PMState :=
  if ¬ (caller = user ∨ caller = s.pmOwner) then .error .notPortfolioOwner
  else if (s.portfolios user).isActive then .error .portfolioAlreadyExists
  else if ¬ assets.length > 0 then .error .portfolioEmpty
  else match checkAssets assets with
    | .error e => .error e
    | .ok _ =>
      if ¬ totalBps assets = 10000 then .error .totalPercentageNot100
      else .ok { s with portfolios := upd s.portfolios user ⟨assets, 0, 0, true⟩ }

/-- Models `updatePortfolio(user, assets)`: full replace of the asset list only. -/
def updatePortfolio (s : PMState) (caller user : Nat) (assets : List Asset) :
    Except Err PMState :=
  if ¬ (caller = user ∨ caller = s.pmOwner) then .error .notPortfolioOwner
  else if ¬ (s.portfolios user).isActive then .error .portfolioDoesNotExist
  else if ¬ assets.length > 0 then .error .portfolioEmpty
  else match checkAssets assets with
    | .error e => .error e
    | .ok _ =>
      if ¬ totalBps assets = 10000 then .error .totalPercentageNot100
      else .ok { s with portfolios :=
            (upd s.portfolios user { s.portfolios user with assets := assets }) }

/-- Models `addAsset(user, tokenAddress, chainId, targetPercentage)`: only checks
`targetPercentage <= 10000` (modifier `validPercentage`) and that the
`(token, chain)` key is not already present, then pushes. -/
def addAsset (s : PMState) (caller user tokenAddress chainId targetPercentage : Nat) :
    Except Err PMState :=
  if ¬ (caller = user ∨ caller = s.pmOwner) then .error .notPortfolioOwner
  else if ¬ (s.portfolios user).isActive then .error .portfolioDoesNotExist
  else if ¬ targetPercentage ≤ 10000 then .error .invalidPercentage
  else
    let pf := s.portfolios user
    if pf.assets.any (fun a => a.tokenAddress = tokenAddress ∧ a.chainId = chainId) then
      .error .assetAlreadyExists
    else .ok { s with portfolios :=
          (upd s.portfolios user
            { pf with assets := pf.assets ++ [⟨tokenAddress, chainId, targetPercentage, true⟩] }) }

/-- The swap-with-last-then-truncate removal of `removeAsset`: the first
matching index receives the last element and the list is popped; `none`
when no asset matches. -/
def removeAssetList (assets : List Asset) (tokenAddress chainId : Nat) :
    Option (List Asset) :=
  match assets.findIdx? (fun a => a.tokenAddress = tokenAddress ∧ a.chainId = chainId) with
  | none => none
  | some i => some ((assets.set i (assets.getLastD ⟨0, 0, 0, false⟩)).dropLast)

/-- Models `removeAsset(user, tokenAddress, chainId)`. -/
def removeAsset (s : PMState) (caller user tokenAddress chainId : Nat) :
    Except Err PMState :=
  if ¬ (caller = user ∨ caller = s.pmOwner) then .error .notPortfolioOwner
  else if ¬ (s.portfolios user).isActive then .error .portfolioDoesNotExist
  else
    let pf := s.portfolios user
    match removeAssetList pf.assets tokenAddress chainId with
    | none => .error .assetNotFound
    | some assets' => .ok { s with portfolios :=
          (upd s.portfolios user { pf with assets := assets' }) }

/-- Models `setDelegationPolicy(user, delegate, maxSlippage, maxRebalanceAmount,
rebalanceThreshold, cooldownPeriod)`. -/
def setDelegationPolicy (s : PMState) (caller user delegate maxSlippage
    maxRebalanceAmount rebalanceThreshold cooldownPeriod : Nat) :
    Except Err PMState :=
  if ¬ (caller = user ∨ caller = s.pmOwner) then .error .notPortfolioOwner
  else if ¬ (s.portfolios user).isActive then .error .portfolioDoesNotExist
  else if delegate = 0 then .error .invalidDelegateAddress
  else if ¬ maxSlippage ≤ 1000 then .error .maxSlippageTooHigh
  else if ¬ rebalanceThreshold ≤ 1000 then .error .thresholdTooHigh
  else if ¬ cooldownPeriod ≥ 3600 then .error .cooldownTooShort
  else .ok { s with delegationPolicies :=
        (upd s.delegationPolicies user
          ⟨delegate, maxSlippage, maxRebalanceAmount, rebalanceThreshold, cooldownPeriod, true⟩) }

/-- Models `revokeDelegation(user)`: idempotent deactivation. -/
def revokeDelegation (s : PMState) (caller user : Nat) : Except Err PMState :=
  if ¬ (caller = user ∨ caller = s.pmOwner) then .error .notPortfolioOwner
  else .ok { s with delegationPolicies :=
        (upd s.delegationPolicies user { s.delegationPolicies user with isActive := false }) }

/-- Models `updateBalance(user, tokenAddress, newBalance)`: delegate-only overwrite
of the cached balance. -/
def updateBalance (s : PMState) (caller user tokenAddress newBalance : Nat) :
    Except Err PMState :=
  if ¬ (s.delegationPolicies user).isActive then .error .delegationNotActive
  else if ¬ caller = (s.delegationPolicies user).delegate then .error .notAuthorizedDelegate
  else .ok { s with userBalances :=
        (upd s.userBalances user (upd (s.userBalances user) tokenAddress newBalance)) }

/-- Models `executeRebalance(user, totalValue)`: delegate-only; enforces the
cooldown, then stamps `totalValue` and `lastRebalance = now`. -/
def executeRebalance (s : PMState) (caller user totalValue now : Nat) :
    Except Err PMState :=
  if ¬ (s.delegationPolicies user).isActive then .error .delegationNotActive
  else if ¬ caller = (s.delegationPolicies user).delegate then .error .notAuthorizedDelegate
  else if ¬ now ≥ (s.portfolios user).lastRebalance + (s.delegationPolicies user).cooldownPeriod then
    .error .cooldownNotMet
  else .ok { s with portfolios :=
        (upd s.portfolios user
          { s.portfolios user with totalValue := totalValue, lastRebalance := now }) }

/-- The per-asset drift of `needsRebalancing`:
`|current - target|` in basis points. -/
def drift (current target : Nat) : Nat :=
  if current > target then current - target else target - current

/-- Models `needsRebalancing(user, currentAllocations)` (view). -/
def needsRebalancing (s : PMState) (user : Nat) (currentAllocations : List Nat)
    (now : Nat) : Except Err Bool :=
  if ¬ (s.delegationPolicies user).isActive then .ok false
  else if now < (s.portfolios user).lastRebalance + (s.delegationPolicies user).cooldownPeriod then
    .ok false
  else
    let pf := s.portfolios user
    if ¬ currentAllocations.length = pf.assets.length then .error .invalidAllocationLength
    else
      let threshold := (s.delegationPolicies user).rebalanceThreshold
      .ok ((pf.assets.zip currentAllocations).any
        (fun p => decide (drift p.2 p.1.targetPercentage > threshold)))

/-! ## CrossChainRebalancer -/
/-- Models `CrossChainRebalancer.SwapParams` (`routeId` bytes32 as `Nat`). -/
structure SwapParams where
  tokenIn : Nat
  tokenOut : Nat
  amountIn : Nat
  minAmountOut : Nat
  chainId : Nat
  routeId : Nat
deriving DecidableEq, Repr

/-- Models `CrossChainRebalancer.BridgeParams`. -/
structure BridgeParams where
  token : Nat
  amount : Nat
  fromChainId : Nat
  toChainId : Nat
  bridgeId : Nat
deriving DecidableEq, Repr

/-- Models `CrossChainRebalancer.RebalanceAction`. -/
structure RebalanceAction where
  user : Nat
  swaps : List SwapParams
  bridges : List BridgeParams
  totalValue : Nat
  timestamp : Nat
  executed : Bool
deriving DecidableEq, Repr

/-- The zero-initialised action of an unknown id (`user = 0` marks
"no such action" for the `validAction` modifier). -/
def emptyAction : RebalanceAction := ⟨0, [], [], 0, 0, false⟩

/-- Injective model of the action id
`keccak256(abi.encodePacked(user, block.timestamp, block.number,
swaps.length, bridges.length))`. -/
structure ActionId where
  user : Nat
  timestamp : Nat
  blockNumber : Nat
  numSwaps : Nat
  numBridges : Nat
deriving DecidableEq, Repr

/-- Storage of `CrossChainRebalancer`, together with the `PortfolioManager`
instance it calls into.  `rbAddress` is the rebalancer contract's own
address — the `msg.sender` seen by `PortfolioManager` on nested calls. -/
structure RBState where
  pm : PMState
  rebalanceActions : ActionId → RebalanceAction
  authorizedAgents : Nat → Bool
  chainTokenPrices : Nat → Nat → Nat
  rbOwner : Nat
  rbAddress : Nat

/-- Placeholder element for guarded `List.getD` indexing. -/
def swap0 : SwapParams := ⟨0, 0, 0, 0, 0, 0⟩

/-- Placeholder element for guarded `List.getD` indexing. -/
def bridge0 : BridgeParams := ⟨0, 0, 0, 0, 0⟩

/-- Models `createRebalanceAction(user, swaps, bridges, totalValue)`:
agent-only; stores the action under the derived id (overwriting whatever
the mapping held there) and returns the id. -/
def createRebalanceAction (s : RBState) (caller user : Nat)
    (swaps : List SwapParams) (bridges : List BridgeParams)
    (totalValue now blockNumber : Nat) : Except Err (RBState × ActionId) :=
  if ¬ s.authorizedAgents caller then .error .notAuthorizedAgent
  else if user = 0 then .error .invalidUser
  else if ¬ totalValue > 0 then .error .invalidTotalValue
  else
    let actionId : ActionId := ⟨user, now, blockNumber, swaps.length, bridges.length⟩
    .ok ({ s with rebalanceActions :=
            (upd s.rebalanceActions actionId
              ⟨user, swaps, bridges, totalValue, now, false⟩) },
         actionId)

/-- Models `executeSwap(actionId, swapIndex, actualAmountOut)`. -/
def executeSwap (s : RBState) (caller : Nat) (actionId : ActionId)
    (swapIndex actualAmountOut : Nat) : Except Err RBState :=
  if ¬ s.authorizedAgents caller then .error .notAuthorizedAgent
  else if (s.rebalanceActions actionId).user = 0 then .error .invalidAction
  else if (s.rebalanceActions actionId).executed then .error .actionAlreadyExecuted
  else
    let action := s.rebalanceActions actionId
    if ¬ swapIndex < action.swaps.length then .error .invalidSwapIndex
    else
      let swp := action.swaps.getD swapIndex swap0
      if ¬ actualAmountOut ≥ swp.minAmountOut then .error .slippageTooHigh
      else
        match updateBalance s.pm s.rbAddress action.user swp.tokenIn 0 with
        | .error e => .error e
        | .ok pm1 =>
          match updateBalance pm1 s.rbAddress action.user swp.tokenOut actualAmountOut with
          | .error e => .error e
          | .ok pm2 => .ok { s with pm := pm2 }

/-- Models `executeBridge(actionId, bridgeIndex, actualAmount)`. -/
def executeBridge (s : RBState) (caller : Nat) (actionId : ActionId)
    (bridgeIndex actualAmount : Nat) : Except Err RBState :=
  if ¬ s.authorizedAgents caller then .error .notAuthorizedAgent
  else if (s.rebalanceActions actionId).user = 0 then .error .invalidAction
  else if (s.rebalanceActions actionId).executed then .error .actionAlreadyExecuted
  else
    let action := s.rebalanceActions actionId
    if ¬ bridgeIndex < action.bridges.length then .error .invalidBridgeIndex
    else
      let brg := action.bridges.getD bridgeIndex bridge0
      if ¬ actualAmount > 0 then .error .invalidBridgeAmount
      else
        match updateBalance s.pm s.rbAddress action.user brg.token actualAmount with
        | .error e => .error e
        | .ok pm1 => .ok { s with pm := pm1 }

/-- Models `completeRebalanceAction(actionId)`: marks the action executed and then
calls `PortfolioManager.executeRebalance`; a revert there discards the
whole call, flag included. -/
def completeRebalanceAction (s : RBState) (caller : Nat) (actionId : ActionId)
    (now : Nat) : Except Err RBState :=
  if ¬ s.authorizedAgents caller then .error .notAuthorizedAgent
  else if (s.rebalanceActions actionId).user = 0 then .error .invalidAction
  else if (s.rebalanceActions actionId).executed then .error .actionAlreadyExecuted
  else
    let action := s.rebalanceActions actionId
    let s1 := { s with rebalanceActions :=
          (upd s.rebalanceActions actionId { action with executed := true }) }
    match executeRebalance s1.pm s.rbAddress action.user action.totalValue now with
    | .error e => .error e
    | .ok pm' => .ok { s1 with pm := pm' }

/-- Models `emergencyPause(actionId)`: owner-only; flips `executed` without
touching balances or the portfolio. -/
def emergencyPause (s : RBState) (caller : Nat) (actionId : ActionId) :
    Except Err RBState :=
  if ¬ caller = s.rbOwner then .error .notContractOwner
  else if (s.rebalanceActions actionId).user = 0 then .error .invalidAction
  else .ok { s with rebalanceActions :=
        (upd s.rebalanceActions actionId
          { s.rebalanceActions actionId with executed := true }) }

/-- One execution-phase call on the orchestrator (the calls named by the
terminality property). -/
inductive ExecCall where
  | swap (caller : Nat) (actionId : ActionId) (idx amt : Nat)
  | bridge (caller : Nat) (actionId : ActionId) (idx amt : Nat)
  | complete (caller : Nat) (actionId : ActionId) (now : Nat)
  | pause (caller : Nat) (actionId : ActionId)

/-- Transaction-level step for execution-phase calls: reverts leave the
state unchanged. -/
def execStep (s : RBState) : ExecCall → RBState
  | .swap caller actionId idx amt => (runTx s (executeSwap s caller actionId idx amt)).1
  | .bridge caller actionId idx amt => (runTx s (executeBridge s caller actionId idx amt)).1
  | .complete caller actionId now => (runTx s (completeRebalanceAction s caller actionId now)).1
  | .pause caller actionId => (runTx s (emergencyPause s caller actionId)).1

/-! ## Concrete fixtures -/
/-- A concrete recovery oracle: signatures 11 and 12 resolve to address 1,
everything else to address 3. -/
def recover0 : Digest → Nat → Nat := fun _ sig => if sig = 11 ∨ sig = 12 then 1 else 3

/-- A concrete session id (owner 1, delegate 2, creation nonce 0, time 50). -/
def sid0 : SessionId := ⟨1, 2, 0, 50⟩

/-- A live session for `sid0`: expiry 1000, policy hash 7, two operations
allowed, none used. -/
def litSess0 : DelegationSession := ⟨1, 2, 0, 1000, 7, true, 2, 0⟩

/-- Models `LitProtocolDelegate` storage holding exactly the session `sid0`. -/
def litDemo : LitState :=
  { delegationSessions := upd (fun _ => emptySession) sid0 litSess0,
    userNonces := upd (fun _ => 0) 1 1,
    usedSignatures := fun _ => false,
    contractOwner := 9 }

/-- Models `litDemo` after signature 11 has been accepted (marked used). -/
def litUsedDemo : LitState :=
  { litDemo with usedSignatures := upd (fun _ => false) 11 true }

/-- Operation with the session nonce 0, signed with signature 11
(resolves to the owner). -/
def op11 : SignedOperation := ⟨1, 2, 0, 1, 0, 5, 11⟩

/-- A second nonce-0 operation with the distinct signature 12 (also
resolves to the owner). -/
def op12 : SignedOperation := ⟨1, 2, 0, 1, 0, 6, 12⟩

/-- Operation carrying nonce 1 — the nonce the spec expects the second
accepted cycle to use. -/
def opNonce1 : SignedOperation := ⟨1, 2, 1, 1, 0, 6, 12⟩

/-- Operation whose signature 13 recovers to address 3, not the owner. -/
def op13 : SignedOperation := ⟨1, 2, 0, 1, 0, 5, 13⟩

/-! ## C2: operation cap and nonce behaviour of executeOperation -/
/-- Sequential `executeOperation` calls on one session, the spec's
"verify/execute cycles". -/
def runExec (recover : Digest → Nat → Nat) (now caller : Nat) (sid : SessionId) :
    LitState → List SignedOperation → Except Err LitState
  | s, [] => .ok s
  | s, op :: rest =>
    match executeOperation recover s now caller sid op with
    | .error e => .error e
    | .ok s' => runExec recover now caller sid s' rest

/-- First verify/execute cycle on the demo session (operations cap 2). -/
def c2exec1 : Except Err LitState := executeOperation recover0 litDemo 100 2 sid0 op11

/-- State after that first successful cycle. -/
def c2s1 : LitState :=
  match c2exec1 with
  | .ok s => s
  | .error _ => litDemo

/-! ## C3: signature verdict versus signature marking -/
/-- The demo verification of `op13`, whose signature recovers to address 3,
not the session owner 1. -/
def c3verif : Except Err (LitState × Bool) :=
  verifySignedOperation recover0 litDemo 100 2 sid0 op13

/-- Post-state of that verification call. -/
def c3post : LitState :=
  match c3verif with
  | .ok p => p.1
  | .error _ => litDemo

/-! ## PortfolioManager / CrossChainRebalancer fixtures -/
/-- Fresh `PortfolioManager` storage (contract owner at address 0). -/
def pmDemo0 : PMState :=
  { portfolios := fun _ => emptyPortfolio,
    delegationPolicies := fun _ => emptyPolicy,
    userBalances := fun _ _ => 0,
    pmOwner := 0 }

/-- Owner 1 holds a 50/50 two-asset portfolio and an active delegation
policy (delegate 8, threshold 100 bps, cooldown 3600 s). -/
def pmLive : PMState :=
  { portfolios := upd (fun _ => emptyPortfolio) 1
      ⟨[⟨1, 1, 5000, true⟩, ⟨2, 1, 5000, true⟩], 0, 0, true⟩,
    delegationPolicies := upd (fun _ => emptyPolicy) 1 ⟨8, 50, 1000, 100, 3600, true⟩,
    userBalances := fun _ _ => 0,
    pmOwner := 0 }

/-- A swap leg: 100 of token 1 into token 2, at least 99 out. -/
def swapA : SwapParams := ⟨1, 2, 100, 99, 1, 0⟩

/-- A different swap leg (token 3 into token 4). -/
def swapB : SwapParams := ⟨3, 4, 50, 40, 1, 0⟩

/-- Rebalancer over `pmDemo0` with agent 2 authorized; the rebalancer
contract itself lives at address 8. -/
def rbDemo : RBState :=
  { pm := pmDemo0,
    rebalanceActions := fun _ => emptyAction,
    authorizedAgents := fun a => decide (a = 2),
    chainTokenPrices := fun _ _ => 0,
    rbOwner := 9,
    rbAddress := 8 }

/-- Id of the stored demo action (owner 1, time 100, block 5, one swap). -/
def aid1 : ActionId := ⟨1, 100, 5, 1, 0⟩

/-- Rebalancer over `pmLive` holding the pending action `aid1` for
owner 1, agent 2 authorized, rebalancer address 8 (= the policy
delegate). -/
def rbLive : RBState :=
  { pm := pmLive,
    rebalanceActions := upd (fun _ => emptyAction) aid1 ⟨1, [swapA], [], 1000, 100, false⟩,
    authorizedAgents := fun a => decide (a = 2),
    chainTokenPrices := fun _ _ => 0,
    rbOwner := 9,
    rbAddress := 8 }

/-! ## C6: needsRebalancing characterization -/
/-- The maximal per-asset drift of an allocation vector against the
portfolio targets, in basis points. -/
def maxDrift (assets : List Asset) (alloc : List Nat) : Nat :=
  ((assets.zip alloc).map (fun p => drift p.2 p.1.targetPercentage)).foldr max 0

/-! ## C5: the allocation invariant under add/remove -/
/-- Creation of owner 1's single-asset (10000 bps) portfolio. -/
def c5r1 : Except Err PMState := createPortfolio pmDemo0 1 1 [⟨1, 1, 10000, true⟩]

/-- State after that creation. -/
def c5s1 : PMState :=
  match c5r1 with
  | .ok s => s
  | .error _ => pmDemo0

/-- Models `addAsset` of a further 500-bps asset onto the full portfolio. -/
def c5r2 : Except Err PMState := addAsset c5s1 1 1 2 1 500

/-- State after that `addAsset`. -/
def c5s2 : PMState :=
  match c5r2 with
  | .ok s => s
  | .error _ => c5s1

/-! ## C4: action-id derivation and overwriting -/
/-- First action creation: owner 1, one swap leg, value 1000, at time 100
in block 5. -/
def c4r1 : Except Err (RBState × ActionId) :=
  createRebalanceAction rbDemo 2 1 [swapA] [] 1000 100 5

/-- State after the first creation. -/
def c4s1 : RBState :=
  match c4r1 with
  | .ok p => p.1
  | .error _ => rbDemo

/-- Id returned by the first creation. -/
def c4id1 : ActionId :=
  match c4r1 with
  | .ok p => p.2
  | .error _ => ⟨0, 0, 0, 0, 0⟩

/-- Second creation in the same block and second with the same owner and
leg counts but different leg data and value. -/
def c4r2 : Except Err (RBState × ActionId) :=
  createRebalanceAction c4s1 2 1 [swapB] [] 2000 100 5

/-- State after the second creation. -/
def c4s2 : RBState :=
  match c4r2 with
  | .ok p => p.1
  | .error _ => c4s1

/-- Id returned by the second creation. -/
def c4id2 : ActionId :=
  match c4r2 with
  | .ok p => p.2
  | .error _ => ⟨0, 0, 0, 0, 0⟩

/-- Third creation, identical except for a different block number. -/
def c4r3 : Except Err (RBState × ActionId) :=
  createRebalanceAction c4s1 2 1 [swapB] [] 2000 100 6

/-- State after the third creation. -/
def c4s3 : RBState :=
  match c4r3 with
  | .ok p => p.1
  | .error _ => c4s1

/-- Id returned by the third creation. -/
def c4id3 : ActionId :=
  match c4r3 with
  | .ok p => p.2
  | .error _ => ⟨0, 0, 0, 0, 0⟩

/-- First (successful) completion of the live fixture's action. -/
def c9r1 : Except Err RBState := completeRebalanceAction rbLive 2 aid1 4000

/-- State after that completion: action `aid1` is terminal, the portfolio
is stamped. -/
def c9s1 : RBState :=
  match c9r1 with
  | .ok s => s
  | .error _ => rbLive

/-! ## Theorems -/

@[simp] theorem upd_same {α β : Type} [DecidableEq α] (m : α → β) (k : α) (v : β) :
    upd m k v k = v := by simp [upd]

@[simp] theorem upd_ne {α β : Type} [DecidableEq α] (m : α → β) (k k' : α) (v : β)
    (h : k' ≠ k) : upd m k v k' = m k' := by simp [upd, h]

/-! ## Session-authority lemmas -/
theorem verify_ok_state (recover : Digest → Nat → Nat) (s : LitState)
    (now caller : Nat) (sid : SessionId) (op : SignedOperation)
    (s' : LitState) (v : Bool)
    (h : verifySignedOperation recover s now caller sid op = .ok (s', v)) :
    s' = { s with usedSignatures := upd s.usedSignatures op.signature true } := by
  simp only [verifySignedOperation] at h
  split_ifs at h
  all_goals try exact Except.noConfusion h
  injection h with hp
  exact (congrArg Prod.fst hp).symm

/-- A used signature is preserved by a successful verification. -/
theorem verify_preserves_used (recover : Digest → Nat → Nat) (s : LitState)
    (now caller : Nat) (sid : SessionId) (op : SignedOperation)
    (sig : Nat) (h : s.usedSignatures sig = true)
    (s' : LitState) (v : Bool)
    (hok : verifySignedOperation recover s now caller sid op = .ok (s', v)) :
    s'.usedSignatures sig = true := by
  rw [verify_ok_state recover s now caller sid op s' v hok]
  simp only [upd]
  split <;> simp [h]

/-- A used signature is preserved by the batch verification loop. -/
theorem verifyLoop_preserves_used (recover : Digest → Nat → Nat)
    (now caller : Nat) (sid : SessionId) :
    ∀ (ops : List SignedOperation) (s s' : LitState) (sig : Nat),
      s.usedSignatures sig = true →
      verifyLoop recover now caller sid s ops = .ok s' →
      s'.usedSignatures sig = true := by
  intro ops
  induction ops with
  | nil =>
    intro s s' sig h hok
    simp only [verifyLoop, Except.ok.injEq] at hok
    rw [← hok]; exact h
  | cons op rest ih =>
    intro s s' sig h hok
    simp only [verifyLoop] at hok
    cases hv : verifySignedOperation recover s now caller sid op with
    | error e => rw [hv] at hok; exact Except.noConfusion hok
    | ok p =>
      rw [hv] at hok
      obtain ⟨s1, v⟩ := p
      cases v with
      | false => simp at hok
      | true =>
        simp only [if_pos] at hok
        exact ih s1 s' sig
          (verify_preserves_used recover s now caller sid op sig h s1 true hv) hok

theorem create_ok_used (s : LitState) (now user delegate expiry policyHash
    maxOperations : Nat) (s' : LitState) (sid : SessionId)
    (h : createDelegationSession s now user delegate expiry policyHash maxOperations
          = .ok (s', sid)) :
    s'.usedSignatures = s.usedSignatures := by
  simp only [createDelegationSession] at h
  split_ifs at h
  all_goals try exact Except.noConfusion h
  injection h with hp
  simp only [Prod.mk.injEq] at hp
  rw [← hp.1]

theorem revoke_ok_used (s : LitState) (caller : Nat) (sid : SessionId)
    (s' : LitState) (h : revokeDelegationSession s caller sid = .ok s') :
    s'.usedSignatures = s.usedSignatures := by
  simp only [revokeDelegationSession] at h
  split_ifs at h
  all_goals try exact Except.noConfusion h
  injection h with hp
  rw [← hp]

theorem execute_preserves_used (recover : Digest → Nat → Nat) (s : LitState)
    (now caller : Nat) (sid : SessionId) (op : SignedOperation)
    (sig : Nat) (h : s.usedSignatures sig = true) (s' : LitState)
    (hok : executeOperation recover s now caller sid op = .ok s') :
    s'.usedSignatures sig = true := by
  simp only [executeOperation] at hok
  split_ifs at hok
  cases hv : verifySignedOperation recover s now caller sid op with
  | error e => rw [hv] at hok; exact Except.noConfusion hok
  | ok p =>
    rw [hv] at hok
    obtain ⟨s1, v⟩ := p
    cases v with
    | false => simp at hok
    | true =>
      simp only [if_pos] at hok
      injection hok with hp
      rw [← hp]
      exact verify_preserves_used recover s now caller sid op sig h s1 true hv

theorem batch_preserves_used (recover : Digest → Nat → Nat) (s : LitState)
    (now caller : Nat) (sid : SessionId) (ops : List SignedOperation)
    (numHashes : Nat) (sig : Nat) (h : s.usedSignatures sig = true) (s' : LitState)
    (hok : batchExecuteOperations recover s now caller sid ops numHashes = .ok s') :
    s'.usedSignatures sig = true := by
  simp only [batchExecuteOperations] at hok
  split_ifs at hok
  all_goals try exact Except.noConfusion hok
  cases hv : verifyLoop recover now caller sid s ops with
  | error e => rw [hv] at hok; exact Except.noConfusion hok
  | ok s1 =>
    rw [hv] at hok
    injection hok with hp
    rw [← hp]
    exact verifyLoop_preserves_used recover now caller sid ops s s1 sig h hv

/-- Every state-mutating entry point of `LitProtocolDelegate` preserves a
used signature: the contract never writes `false` into `usedSignatures`. -/
theorem litStep_preserves_used (recover : Digest → Nat → Nat) (s : LitState)
    (sig : Nat) (h : s.usedSignatures sig = true) (c : LitCall) :
    (litStep recover s c).usedSignatures sig = true := by
  cases c with
  | create now user delegate expiry policyHash maxOperations =>
    simp only [litStep]
    cases hr : createDelegationSession s now user delegate expiry policyHash maxOperations with
    | error e => exact h
    | ok p =>
      obtain ⟨s', sid⟩ := p
      rw [create_ok_used s now user delegate expiry policyHash maxOperations s' sid hr]
      exact h
  | revoke caller sid =>
    simp only [litStep]
    cases hr : revokeDelegationSession s caller sid with
    | error e => simp [runTx, h]
    | ok s' =>
      simp only [runTx]
      rw [revoke_ok_used s caller sid s' hr]
      exact h
  | verify now caller sid op =>
    simp only [litStep]
    cases hr : verifySignedOperation recover s now caller sid op with
    | error e => exact h
    | ok p =>
      obtain ⟨s', v⟩ := p
      exact verify_preserves_used recover s now caller sid op sig h s' v hr
  | execute now caller sid op =>
    simp only [litStep]
    cases hr : executeOperation recover s now caller sid op with
    | error e => simp [runTx, h]
    | ok s' =>
      simp only [runTx]
      exact execute_preserves_used recover s now caller sid op sig h s' hr
  | batch now caller sid ops numHashes =>
    simp only [litStep]
    cases hr : batchExecuteOperations recover s now caller sid ops numHashes with
    | error e => simp [runTx, h]
    | ok s' =>
      simp only [runTx]
      exact batch_preserves_used recover s now caller sid ops numHashes sig h s' hr
  | emergencyRevoke caller user =>
    simp only [litStep, emergencyRevokeUserSessions]
    split_ifs <;> simp [runTx, h]

/-- Preservation of a used signature along any sequence of contract calls. -/
theorem litTrace_preserves_used (recover : Digest → Nat → Nat) (sig : Nat) :
    ∀ (cs : List LitCall) (s : LitState), s.usedSignatures sig = true →
      (cs.foldl (litStep recover) s).usedSignatures sig = true := by
  intro cs
  induction cs with
  | nil => intro s h; exact h
  | cons c rest ih =>
    intro s h
    exact ih (litStep recover s c) (litStep_preserves_used recover s sig h c)

/-- C1 -- Once a signature is in the global `usedSignatures` set, (i) no
verification of an operation carrying it can succeed, on any session;
(ii) when the session and field checks pass, the rejection is precisely the
replay error "Signature already used"; (iii) the mark survives every
further contract call, so it is permanent. -/
theorem usedSignatureRejectedGloballyForever
    (recover : Digest → Nat → Nat) (s : LitState) (op : SignedOperation)
    (h : s.usedSignatures op.signature = true) :
    (∀ now caller sid r, verifySignedOperation recover s now caller sid op ≠ .ok r)
    ∧ (∀ now caller sid,
        (s.delegationSessions sid).isActive = true →
        now ≤ (s.delegationSessions sid).expiry →
        (s.delegationSessions sid).operationsUsed < (s.delegationSessions sid).maxOperations →
        op.user = (s.delegationSessions sid).user →
        op.delegate = (s.delegationSessions sid).delegate →
        op.nonce = (s.delegationSessions sid).nonce →
        verifySignedOperation recover s now caller sid op = .error .signatureAlreadyUsed)
    ∧ (∀ cs : List LitCall, ((cs.foldl (litStep recover) s)).usedSignatures op.signature = true) := by
  refine ⟨?_, ?_, ?_⟩
  · intro now caller sid r hok
    simp only [verifySignedOperation] at hok
    split_ifs at hok
    all_goals try exact Except.noConfusion hok
    all_goals exact absurd h (by assumption)
  · intro now caller sid hAct hExp hCap hU hD hN
    simp [verifySignedOperation, hAct, hExp, hCap, hU, hD, hN, h]
  · intro cs
    exact litTrace_preserves_used recover op.signature cs s h

/-- Witness for C1 at a concrete state where signature 11 is already
used: the session is live and all operation fields match, yet the
resubmission is rejected with the replay error. -/
theorem usedSignatureRejectedGloballyForever_witness :
    litUsedDemo.usedSignatures op11.signature = true ∧
    verifySignedOperation recover0 litUsedDemo 100 4 sid0 op11 = .error .signatureAlreadyUsed :=
  ⟨by decide,
   (usedSignatureRejectedGloballyForever recover0 litUsedDemo op11 (by decide)).2.1
     100 4 sid0 (by decide) (by decide) (by decide) (by decide) (by decide) (by decide)⟩

/-- C10 -- `verifySignedOperation` never reads `msg.sender`: two calls by
different callers on the same state, session and operation produce the
identical result, post-state included; any third party can therefore run
it (and mark the signature used), not only the session delegate. -/
theorem verifyIndependentOfCaller (recover : Digest → Nat → Nat)
    (s : LitState) (now : Nat) (sid : SessionId) (op : SignedOperation) :
    ∀ caller caller' : Nat,
      verifySignedOperation recover s now caller sid op =
      verifySignedOperation recover s now caller' sid op :=
  fun _ _ => rfl

/-- Exact success behaviour of one `executeOperation` call: the signature
is marked used and `operationsUsed` is incremented; nothing else changes —
in particular the session nonce. -/
theorem executeOperation_ok_spec (recover : Digest → Nat → Nat) (s : LitState)
    (now caller : Nat) (sid : SessionId) (op : SignedOperation)
    (hAct : (s.delegationSessions sid).isActive = true)
    (hExp : now ≤ (s.delegationSessions sid).expiry)
    (hCap : (s.delegationSessions sid).operationsUsed < (s.delegationSessions sid).maxOperations)
    (hU : op.user = (s.delegationSessions sid).user)
    (hD : op.delegate = (s.delegationSessions sid).delegate)
    (hN : op.nonce = (s.delegationSessions sid).nonce)
    (hSig : recover (digestOf op (s.delegationSessions sid).policyHash) op.signature
              = (s.delegationSessions sid).user)
    (hFresh : s.usedSignatures op.signature = false)
    (hCaller : caller = (s.delegationSessions sid).delegate) :
    executeOperation recover s now caller sid op =
      .ok { s with
        usedSignatures := upd s.usedSignatures op.signature true,
        delegationSessions :=
          (upd s.delegationSessions sid
            { s.delegationSessions sid with
                operationsUsed := (s.delegationSessions sid).operationsUsed + 1 }) } := by
  simp [executeOperation, verifySignedOperation, hAct, hExp, hCap, hU, hD, hN, hSig,
    hFresh, hCaller, upd]

/-- A fresh-signature list consumed by `runExec` bumps `operationsUsed` by
its length, leaves every other session field (the nonce included)
untouched, and only marks the consumed signatures. -/
theorem runExec_ok_spec (recover : Digest → Nat → Nat) (now caller : Nat) (sid : SessionId) :
    ∀ (ops : List SignedOperation) (s : LitState),
      (s.delegationSessions sid).isActive = true →
      now ≤ (s.delegationSessions sid).expiry →
      caller = (s.delegationSessions sid).delegate →
      (s.delegationSessions sid).operationsUsed + ops.length ≤ (s.delegationSessions sid).maxOperations →
      (∀ op ∈ ops, op.user = (s.delegationSessions sid).user ∧
        op.delegate = (s.delegationSessions sid).delegate ∧
        op.nonce = (s.delegationSessions sid).nonce ∧
        recover (digestOf op (s.delegationSessions sid).policyHash) op.signature
          = (s.delegationSessions sid).user) →
      (∀ op ∈ ops, s.usedSignatures op.signature = false) →
      ops.Pairwise (fun a b => a.signature ≠ b.signature) →
      ∃ s', runExec recover now caller sid s ops = .ok s' ∧
        s'.delegationSessions sid =
          { s.delegationSessions sid with
              operationsUsed := (s.delegationSessions sid).operationsUsed + ops.length } := by
  intro ops
  induction ops with
  | nil =>
    intro s hAct hExp hCaller hCap hOps hFresh hDist
    exact ⟨s, rfl, by simp⟩
  | cons op rest ih =>
    intro s hAct hExp hCaller hCap hOps hFresh hDist
    obtain ⟨hU, hD, hN, hSig⟩ := hOps op (List.mem_cons_self op rest)
    have hstep := executeOperation_ok_spec recover s now caller sid op hAct hExp
      (by simp only [List.length_cons] at hCap; omega) hU hD hN hSig
      (hFresh op (List.mem_cons_self op rest)) hCaller
    have hmem : ∀ op' ∈ rest, op' ∈ op :: rest := fun op' h' => List.mem_cons_of_mem op h'
    rw [List.pairwise_cons] at hDist
    obtain ⟨hhead, htail⟩ := hDist
    obtain ⟨s', hrun, hsess⟩ := ih
      ({ s with
          usedSignatures := upd s.usedSignatures op.signature true,
          delegationSessions :=
            (upd s.delegationSessions sid
              { s.delegationSessions sid with
                  operationsUsed := (s.delegationSessions sid).operationsUsed + 1 }) })
      (by simp [upd, hAct]) (by simp [upd, hExp]) (by simp [upd, hCaller])
      (by simp only [List.length_cons] at hCap; simp [upd]; omega)
      (by intro op' h'; simpa [upd] using hOps op' (hmem op' h'))
      (by intro op' h'
          have hne : op'.signature ≠ op.signature := fun he => hhead op' h' he.symm
          simp only [upd, if_neg hne]
          exact hFresh op' (hmem op' h'))
      htail
    refine ⟨s', ?_, ?_⟩
    · simp only [runExec]
      rw [hstep]
      exact hrun
    · rw [hsess]
      simp only [upd_same, List.length_cons]
      simp [DelegationSession.mk.injEq]
      omega

/-- C2 (amended) -- A session with `maxOperations = N` and no operation
used yet accepts exactly N verify/execute cycles: all of them must carry
the session's fixed nonce (which `executeOperation` never increments; only
`operationsUsed` grows), and once the cap is reached every further
`executeOperation` attempt is rejected with the max-operations state
error. -/
theorem sessionAcceptsExactlyMaxOpsFixedNonce (recover : Digest → Nat → Nat)
    (s : LitState) (now caller : Nat) (sid : SessionId) (ops : List SignedOperation)
    (hAct : (s.delegationSessions sid).isActive = true)
    (hExp : now ≤ (s.delegationSessions sid).expiry)
    (hCaller : caller = (s.delegationSessions sid).delegate)
    (hUsed0 : (s.delegationSessions sid).operationsUsed = 0)
    (hLen : ops.length = (s.delegationSessions sid).maxOperations)
    (hOps : ∀ op ∈ ops, op.user = (s.delegationSessions sid).user ∧
      op.delegate = (s.delegationSessions sid).delegate ∧
      op.nonce = (s.delegationSessions sid).nonce ∧
      recover (digestOf op (s.delegationSessions sid).policyHash) op.signature
        = (s.delegationSessions sid).user)
    (hFresh : ∀ op ∈ ops, s.usedSignatures op.signature = false)
    (hDist : ops.Pairwise (fun a b => a.signature ≠ b.signature)) :
    ∃ s', runExec recover now caller sid s ops = .ok s' ∧
      (s'.delegationSessions sid).nonce = (s.delegationSessions sid).nonce ∧
      (s'.delegationSessions sid).operationsUsed = (s.delegationSessions sid).maxOperations ∧
      ∀ op', executeOperation recover s' now caller sid op' =
        .error .maxOperationsExceeded := by
  obtain ⟨s', hrun, hsess⟩ := runExec_ok_spec recover now caller sid ops s hAct hExp
    hCaller (by omega) hOps hFresh hDist
  have fA : (s'.delegationSessions sid).isActive = true := by rw [hsess]; exact hAct
  have fE : (s'.delegationSessions sid).expiry = (s.delegationSessions sid).expiry := by
    rw [hsess]
  have fD : (s'.delegationSessions sid).delegate = (s.delegationSessions sid).delegate := by
    rw [hsess]
  have fN : (s'.delegationSessions sid).nonce = (s.delegationSessions sid).nonce := by
    rw [hsess]
  have fU : (s'.delegationSessions sid).operationsUsed
      = (s.delegationSessions sid).maxOperations := by
    rw [hsess]; simp [hUsed0, ← hLen]
  have fM : (s'.delegationSessions sid).maxOperations
      = (s.delegationSessions sid).maxOperations := by
    rw [hsess]
  refine ⟨s', hrun, fN, fU, ?_⟩
  intro op'
  simp [executeOperation, verifySignedOperation, fA, fE, fD, fU, fM, hCaller, hExp]

/-- Counterexample to C2 as stated: after one successful
`executeOperation` on the demo session (maxOperations = 2), the session
nonce is still 0 — it was not incremented alongside `operationsUsed` —
and the second cycle presented with nonce 1, the value the claimed
`0..N-1` progression prescribes, is rejected with the nonce error. -/
theorem executeDoesNotIncrementNonce_counterexample :
    callOk c2exec1 = true ∧
    (c2s1.delegationSessions sid0).operationsUsed = 1 ∧
    (c2s1.delegationSessions sid0).nonce = 0 ∧
    executeOperation recover0 c2s1 101 2 sid0 opNonce1 = .error .invalidNonce :=
  ⟨rfl, rfl, rfl, rfl⟩

/-- Witness for the amended C2: the demo session (cap 2) accepts the two
nonce-0 cycles `[op11, op12]`. -/
theorem sessionAcceptsExactlyMaxOpsFixedNonce_witness :
    (litDemo.delegationSessions sid0).isActive = true ∧
    (litDemo.delegationSessions sid0).operationsUsed = 0 ∧
    ([op11, op12] : List SignedOperation).length
      = (litDemo.delegationSessions sid0).maxOperations ∧
    callOk (runExec recover0 100 2 sid0 litDemo [op11, op12]) = true := by
  refine ⟨by decide, by decide, by decide, ?_⟩
  obtain ⟨s', hrun, -, -, -⟩ := sessionAcceptsExactlyMaxOpsFixedNonce recover0 litDemo
    100 2 sid0 [op11, op12] (by decide) (by decide) (by decide) (by decide) (by decide)
    (by decide) (by decide) (by decide)
  rw [hrun]
  rfl

/-- Counterexample to C3 as stated: the wrong-signer verification of
`op13` completes with verdict `false` — an unsuccessful verification —
yet its signature is marked used in the post-state, so marking is not
restricted to successful verifications. -/
theorem unsuccessfulVerifyMarksUsed_counterexample :
    c3verif = .ok (c3post, false) ∧
    c3post.usedSignatures op13.signature = true :=
  ⟨rfl, rfl⟩

/-- C3 (amended) -- When the session is valid, the operation fields match
and the signature is fresh, verification returns verdict `true` exactly
when the signature recovers to the session owner (`executeOperation`
rejects a wrong-signer operation with the invalid-signature error), but
the post-state marks the signature used in either case: marking is not
conditioned on the verdict. -/
theorem verifyVerdictIsOwnerButMarkingUnconditional (recover : Digest → Nat → Nat)
    (s : LitState) (now caller : Nat) (sid : SessionId) (op : SignedOperation)
    (hAct : (s.delegationSessions sid).isActive = true)
    (hExp : now ≤ (s.delegationSessions sid).expiry)
    (hCap : (s.delegationSessions sid).operationsUsed < (s.delegationSessions sid).maxOperations)
    (hU : op.user = (s.delegationSessions sid).user)
    (hD : op.delegate = (s.delegationSessions sid).delegate)
    (hN : op.nonce = (s.delegationSessions sid).nonce)
    (hFresh : s.usedSignatures op.signature = false) :
    verifySignedOperation recover s now caller sid op =
      .ok ({ s with usedSignatures := upd s.usedSignatures op.signature true },
        decide (recover (digestOf op (s.delegationSessions sid).policyHash) op.signature
          = (s.delegationSessions sid).user))
    ∧ (recover (digestOf op (s.delegationSessions sid).policyHash) op.signature
        ≠ (s.delegationSessions sid).user →
       executeOperation recover s now ((s.delegationSessions sid).delegate) sid op =
         .error .invalidSignature) := by
  have hv : verifySignedOperation recover s now caller sid op =
      .ok ({ s with usedSignatures := upd s.usedSignatures op.signature true },
        decide (recover (digestOf op (s.delegationSessions sid).policyHash) op.signature
          = (s.delegationSessions sid).user)) := by
    simp [verifySignedOperation, hAct, hExp, hCap, hU, hD, hN, hFresh]
  refine ⟨hv, ?_⟩
  intro hBad
  have hv' := verifyIndependentOfCaller recover s now sid op caller
    ((s.delegationSessions sid).delegate)
  rw [hv'] at hv
  simp [executeOperation, hv, hBad]

/-- Witness for the amended C3 at `op13`: its signature is fresh, it
recovers to a non-owner, and the delegate's `executeOperation` attempt is
rejected with the invalid-signature error. -/
theorem verifyVerdictIsOwnerButMarkingUnconditional_witness :
    litDemo.usedSignatures op13.signature = false ∧
    executeOperation recover0 litDemo 100 ((litDemo.delegationSessions sid0).delegate)
      sid0 op13 = .error .invalidSignature :=
  ⟨by decide,
   (verifyVerdictIsOwnerButMarkingUnconditional recover0 litDemo 100 2 sid0 op13
     (by decide) (by decide) (by decide) (by decide) (by decide) (by decide)
     (by decide)).2 (by decide)⟩

theorem any_drift_eq_maxDrift (l : List (Asset × Nat)) (t : Nat) :
    (l.any (fun p => decide (drift p.2 p.1.targetPercentage > t)))
      = decide ((l.map (fun p => drift p.2 p.1.targetPercentage)).foldr max 0 > t) := by
  induction l with
  | nil => simp
  | cons x xs ih =>
    simp only [List.any_cons, List.map_cons, List.foldr_cons, ih]
    by_cases h1 : drift x.2 x.1.targetPercentage > t <;>
      by_cases h2 : (xs.map (fun p => drift p.2 p.1.targetPercentage)).foldr max 0 > t <;>
      simp [h1, h2, lt_max_iff]

/-- C6 -- `needsRebalancing` returns `ok false` (a decision, not an error)
when the policy is inactive or the cooldown window is still open; fails
with the length-mismatch error when the allocation vector does not match
the asset count; and otherwise answers `true` iff the maximal per-asset
drift exceeds the policy threshold — with the spec's two worked examples
(targets 5000/5000, threshold 100: allocations 6000/4000 → true,
5050/4950 → false). -/
theorem needsRebalancingCharacterization (s : PMState) (user : Nat)
    (alloc : List Nat) (now : Nat) :
    (needsRebalancing s user alloc now =
      if (s.delegationPolicies user).isActive = false
          ∨ now < (s.portfolios user).lastRebalance + (s.delegationPolicies user).cooldownPeriod
      then .ok false
      else if alloc.length ≠ (s.portfolios user).assets.length
      then .error .invalidAllocationLength
      else .ok (decide (maxDrift (s.portfolios user).assets alloc
             > (s.delegationPolicies user).rebalanceThreshold)))
    ∧ needsRebalancing pmLive 1 [6000, 4000] 4000 = .ok true
    ∧ needsRebalancing pmLive 1 [5050, 4950] 4000 = .ok false := by
  refine ⟨?_, rfl, rfl⟩
  by_cases hA : (s.delegationPolicies user).isActive = false
  · simp [needsRebalancing, hA]
  · have hA' : (s.delegationPolicies user).isActive = true := by
      simpa using hA
    by_cases hT : now < (s.portfolios user).lastRebalance + (s.delegationPolicies user).cooldownPeriod
    · simp [needsRebalancing, hA', hT]
    · by_cases hL : alloc.length = (s.portfolios user).assets.length
      · simp [needsRebalancing, maxDrift, any_drift_eq_maxDrift, hA', hT, hL]
      · simp [needsRebalancing, hA', hT, hL]

/-! ## C7: create/update succeed exactly on valid basis-point lists -/
theorem checkAssets_ok (assets : List Asset) :
    checkAssets assets = .ok () ↔
      (∀ a ∈ assets, a.tokenAddress ≠ 0 ∧ a.targetPercentage ≠ 0) := by
  induction assets with
  | nil => simp [checkAssets]
  | cons a rest ih =>
    simp only [checkAssets]
    by_cases h1 : a.tokenAddress = 0
    · simp [h1]
    · by_cases h2 : a.targetPercentage = 0
      · simp [h1, h2]
      · simp [h1, h2, ih]

theorem checkAssets_ok_iff_pos (assets : List Asset)
    (hTok : ∀ a ∈ assets, a.tokenAddress ≠ 0) :
    checkAssets assets = .ok () ↔ (∀ a ∈ assets, 0 < a.targetPercentage) := by
  rw [checkAssets_ok]
  constructor
  · intro h a ha
    exact Nat.pos_of_ne_zero (h a ha).2
  · intro h a ha
    exact ⟨hTok a ha, (h a ha).ne'⟩

/-- C7 -- Given an authorized caller and a non-empty asset list with
non-null tokens, `createPortfolio` (no active portfolio yet) and
`updatePortfolio` (active portfolio present) succeed exactly when the
target basis points are all positive and sum to 10000; on rejection the
transaction leaves the store untouched; and the concrete sums 9999 and
10001 are rejected with the total-percentage error. -/
theorem createUpdateSucceedIffBpsValid (s : PMState) (caller user : Nat)
    (assets : List Asset) (hNE : assets ≠ [])
    (hTok : ∀ a ∈ assets, a.tokenAddress ≠ 0)
    (hAuth : caller = user ∨ caller = s.pmOwner) :
    ((s.portfolios user).isActive = false →
      (callOk (createPortfolio s caller user assets) = true ↔
        (totalBps assets = 10000 ∧ ∀ a ∈ assets, 0 < a.targetPercentage)))
    ∧ ((s.portfolios user).isActive = true →
      (callOk (updatePortfolio s caller user assets) = true ↔
        (totalBps assets = 10000 ∧ ∀ a ∈ assets, 0 < a.targetPercentage)))
    ∧ (∀ e, createPortfolio s caller user assets = .error e →
        runTx s (createPortfolio s caller user assets) = (s, some e))
    ∧ (∀ e, updatePortfolio s caller user assets = .error e →
        runTx s (updatePortfolio s caller user assets) = (s, some e))
    ∧ createPortfolio pmDemo0 1 1 [⟨1, 1, 9999, true⟩] = .error .totalPercentageNot100
    ∧ createPortfolio pmDemo0 1 1 [⟨1, 1, 10001, true⟩] = .error .totalPercentageNot100 := by
  have hLen : assets.length > 0 := List.length_pos.mpr hNE
  refine ⟨?_, ?_, ?_, ?_, rfl, rfl⟩
  · intro hNoPf
    simp only [createPortfolio, if_neg (not_not_intro hAuth), if_neg (not_not_intro hLen)]
    cases hc : checkAssets assets with
    | error e =>
      have hnp : ¬ (∀ a ∈ assets, 0 < a.targetPercentage) := fun hp => by
        rw [(checkAssets_ok_iff_pos assets hTok).mpr hp] at hc
        exact Except.noConfusion hc
      simp [callOk, hNoPf, hnp]
    | ok u =>
      cases u
      by_cases hS : totalBps assets = 10000
      · simp only [callOk, hNoPf, hS]
        simp [callOk]
        exact (checkAssets_ok_iff_pos assets hTok).mp hc
      · simp [callOk, hNoPf, hS]
  · intro hPf
    simp only [updatePortfolio, if_neg (not_not_intro hAuth), if_neg (not_not_intro hLen)]
    cases hc : checkAssets assets with
    | error e =>
      have hnp : ¬ (∀ a ∈ assets, 0 < a.targetPercentage) := fun hp => by
        rw [(checkAssets_ok_iff_pos assets hTok).mpr hp] at hc
        exact Except.noConfusion hc
      simp [callOk, hPf, hnp]
    | ok u =>
      cases u
      by_cases hS : totalBps assets = 10000
      · simp only [callOk, hPf, hS]
        simp [callOk]
        exact (checkAssets_ok_iff_pos assets hTok).mp hc
      · simp [callOk, hPf, hS]
  · intro e he
    rw [he]
    rfl
  · intro e he
    rw [he]
    rfl

/-- Witness for C7: on the fresh store, owner 1's single-asset 10000-bps
list is accepted. -/
theorem createUpdateSucceedIffBpsValid_witness :
    (([⟨1, 1, 10000, true⟩] : List Asset) ≠ []) ∧
    (pmDemo0.portfolios 1).isActive = false ∧
    callOk (createPortfolio pmDemo0 1 1 [⟨1, 1, 10000, true⟩]) = true := by
  refine ⟨by decide, by decide, ?_⟩
  exact ((createUpdateSucceedIffBpsValid pmDemo0 1 1 [⟨1, 1, 10000, true⟩]
    (by decide) (by decide) (Or.inl rfl)).1 (by decide)).mpr ⟨by decide, by decide⟩

/-- Counterexample to C5 as stated: `addAsset` does not re-validate the
sum invariant — after creating a valid 10000-bps portfolio, adding a
500-bps asset succeeds and leaves an active portfolio whose targets sum
to 10500. -/
theorem addAssetBreaksInvariant_counterexample :
    callOk c5r1 = true ∧ callOk c5r2 = true ∧
    (c5s2.portfolios 1).isActive = true ∧
    totalBps (c5s2.portfolios 1).assets = 10500 :=
  ⟨rfl, rfl, rfl, rfl⟩

/-- C5 (amended) -- The invariant (targets sum to 10000, every target
positive, portfolio active) holds for the portfolio stored by every
successful `createPortfolio` and `updatePortfolio`; the incremental
`addAsset`/`removeAsset` do not re-validate it and can break it. -/
theorem portfolioInvariantHoldsAfterCreateUpdate :
    (∀ (s : PMState) (caller user : Nat) (assets : List Asset) (s' : PMState),
      createPortfolio s caller user assets = .ok s' →
        (s'.portfolios user).isActive = true ∧
        totalBps (s'.portfolios user).assets = 10000 ∧
        ∀ a ∈ (s'.portfolios user).assets, 0 < a.targetPercentage)
    ∧ (∀ (s : PMState) (caller user : Nat) (assets : List Asset) (s' : PMState),
      updatePortfolio s caller user assets = .ok s' →
        (s'.portfolios user).isActive = true ∧
        totalBps (s'.portfolios user).assets = 10000 ∧
        ∀ a ∈ (s'.portfolios user).assets, 0 < a.targetPercentage) := by
  constructor
  · intro s caller user assets s' hok
    simp only [createPortfolio] at hok
    split_ifs at hok with h1 h2 h3 h4
    all_goals try exact Except.noConfusion hok
    · cases hc : checkAssets assets with
      | error e =>
        rw [hc] at hok
        exact Except.noConfusion hok
      | ok u =>
        cases u
        rw [hc] at hok
        injection hok with hp
        subst hp
        have hpos : ∀ a ∈ assets, 0 < a.targetPercentage :=
          fun a ha => Nat.pos_of_ne_zero ((checkAssets_ok assets).mp hc a ha).2
        exact ⟨by simp [upd], by simpa [upd] using h4, by simpa [upd] using hpos⟩
    · cases hc : checkAssets assets with
      | error e =>
        rw [hc] at hok
        exact Except.noConfusion hok
      | ok u =>
        cases u
        rw [hc] at hok
        exact Except.noConfusion hok
  · intro s caller user assets s' hok
    simp only [updatePortfolio] at hok
    split_ifs at hok with h1 h2 h3 h4
    all_goals try exact Except.noConfusion hok
    · cases hc : checkAssets assets with
      | error e =>
        rw [hc] at hok
        exact Except.noConfusion hok
      | ok u =>
        cases u
        rw [hc] at hok
        injection hok with hp
        subst hp
        have hpos : ∀ a ∈ assets, 0 < a.targetPercentage :=
          fun a ha => Nat.pos_of_ne_zero ((checkAssets_ok assets).mp hc a ha).2
        exact ⟨by simpa [upd] using h2, by simpa [upd] using h4, by simpa [upd] using hpos⟩
    · cases hc : checkAssets assets with
      | error e =>
        rw [hc] at hok
        exact Except.noConfusion hok
      | ok u =>
        cases u
        rw [hc] at hok
        exact Except.noConfusion hok

/-- Witness for the amended C5: the concrete creation satisfies the
invariant. -/
theorem portfolioInvariantHoldsAfterCreateUpdate_witness :
    c5r1 = .ok c5s1 ∧
    (c5s1.portfolios 1).isActive = true ∧
    totalBps (c5s1.portfolios 1).assets = 10000 := by
  refine ⟨rfl, ?_, ?_⟩
  · exact (portfolioInvariantHoldsAfterCreateUpdate.1 pmDemo0 1 1 [⟨1, 1, 10000, true⟩]
      c5s1 rfl).1
  · exact (portfolioInvariantHoldsAfterCreateUpdate.1 pmDemo0 1 1 [⟨1, 1, 10000, true⟩]
      c5s1 rfl).2.1

/-- Counterexample to C4 as stated: two successful creations with the same
owner, the same timestamp and block, and the same leg counts return the
SAME action id, and the second stored action overwrites the first (its
totalValue 1000 is replaced by 2000). -/
theorem actionIdCollision_counterexample :
    callOk c4r1 = true ∧ callOk c4r2 = true ∧
    c4id1 = c4id2 ∧
    (c4s1.rebalanceActions c4id1).totalValue = 1000 ∧
    (c4s2.rebalanceActions c4id1).totalValue = 2000 :=
  ⟨rfl, rfl, rfl, rfl, rfl⟩

/-- C4 (amended) -- The action id is derived from (owner, creation time,
block number, swap-leg count, bridge-leg count); there is no monotonic
sequence in it.  Two successful creations get distinct ids exactly when
one of those five components differs; with distinct ids the earlier
stored action survives, and with equal ids the later creation overwrites
the earlier one. -/
theorem actionIdsDistinctIffComponentsDiffer
    (s : RBState) (caller user caller' user' : Nat)
    (swaps swaps' : List SwapParams) (bridges bridges' : List BridgeParams)
    (totalValue now blockNumber totalValue' now' blockNumber' : Nat)
    (s1 s2 : RBState) (id1 id2 : ActionId)
    (h1 : createRebalanceAction s caller user swaps bridges totalValue now blockNumber
          = .ok (s1, id1))
    (h2 : createRebalanceAction s1 caller' user' swaps' bridges' totalValue' now' blockNumber'
          = .ok (s2, id2)) :
    (id1 = id2 ↔ (user = user' ∧ now = now' ∧ blockNumber = blockNumber'
      ∧ swaps.length = swaps'.length ∧ bridges.length = bridges'.length))
    ∧ (id1 ≠ id2 → s2.rebalanceActions id1 = ⟨user, swaps, bridges, totalValue, now, false⟩)
    ∧ (id1 = id2 → s2.rebalanceActions id1 = ⟨user', swaps', bridges', totalValue', now', false⟩) := by
  simp only [createRebalanceAction] at h1 h2
  split_ifs at h1 h2
  all_goals try exact Except.noConfusion h1
  all_goals try exact Except.noConfusion h2
  injection h1 with hp1
  injection h2 with hp2
  simp only [Prod.mk.injEq] at hp1 hp2
  obtain ⟨hs1, hid1⟩ := hp1
  obtain ⟨hs2, hid2⟩ := hp2
  subst hid1
  subst hid2
  subst hs1
  subst hs2
  refine ⟨?_, ?_, ?_⟩
  · simp [ActionId.mk.injEq]
  · intro hne
    simp only [upd_ne _ _ _ _ hne, upd_same]
  · intro heq
    rw [heq]
    simp [upd_same]

/-- Witness for the amended C4: a third creation differing only in its
block number yields a distinct id and leaves the first stored action in
place. -/
theorem actionIdsDistinctIffComponentsDiffer_witness :
    c4r1 = .ok (c4s1, c4id1) ∧ c4r3 = .ok (c4s3, c4id3) ∧
    c4id1 ≠ c4id3 ∧
    c4s3.rebalanceActions c4id1 = ⟨1, [swapA], [], 1000, 100, false⟩ := by
  refine ⟨rfl, rfl, by decide, ?_⟩
  exact (actionIdsDistinctIffComponentsDiffer rbDemo 2 1 2 1 [swapA] [swapB] [] []
    1000 100 5 2000 100 6 c4s1 c4s3 c4id1 c4id3 rfl rfl).2.1 (by decide)

/-! ## C8: slippage dichotomy of executeSwap -/
/-- C8 -- For a stored, non-terminal action, an authorized agent, a valid
swap index and the deployed wiring (the action owner's delegation policy
is active with the rebalancer contract as delegate), `executeSwap` with
`actualAmountOut` below the leg's `minAmountOut` reverts with the
slippage (economic) error and the transaction leaves the whole state
unchanged; with `actualAmountOut ≥ minAmountOut` it succeeds, zeroes the
owner's input-token balance and sets the output-token balance to
`actualAmountOut` in the `PortfolioManager`, leaving every stored action
(the `executed` flag included) untouched. -/
theorem executeSwapSlippageDichotomy
    (s : RBState) (caller : Nat) (actionId : ActionId) (idx amt : Nat)
    (hAgent : s.authorizedAgents caller = true)
    (hUser : (s.rebalanceActions actionId).user ≠ 0)
    (hNotExec : (s.rebalanceActions actionId).executed = false)
    (hIdx : idx < (s.rebalanceActions actionId).swaps.length)
    (hPolA : (s.pm.delegationPolicies (s.rebalanceActions actionId).user).isActive = true)
    (hPolD : (s.pm.delegationPolicies (s.rebalanceActions actionId).user).delegate = s.rbAddress)
    (hTok : ((s.rebalanceActions actionId).swaps.getD idx swap0).tokenIn
            ≠ ((s.rebalanceActions actionId).swaps.getD idx swap0).tokenOut) :
    (amt < ((s.rebalanceActions actionId).swaps.getD idx swap0).minAmountOut →
      runTx s (executeSwap s caller actionId idx amt) = (s, some .slippageTooHigh))
    ∧ (((s.rebalanceActions actionId).swaps.getD idx swap0).minAmountOut ≤ amt →
      ∃ s', executeSwap s caller actionId idx amt = .ok s' ∧
        s'.pm.userBalances (s.rebalanceActions actionId).user
          ((s.rebalanceActions actionId).swaps.getD idx swap0).tokenIn = 0 ∧
        s'.pm.userBalances (s.rebalanceActions actionId).user
          ((s.rebalanceActions actionId).swaps.getD idx swap0).tokenOut = amt ∧
        s'.rebalanceActions = s.rebalanceActions) := by
  have hEl : (s.rebalanceActions actionId).swaps.getD idx swap0
      = (s.rebalanceActions actionId).swaps[idx] := List.getD_eq_getElem _ _ hIdx
  constructor
  · intro hlt
    rw [hEl] at hlt
    have hx : executeSwap s caller actionId idx amt = .error .slippageTooHigh := by
      simp [executeSwap, hAgent, hUser, hNotExec, hIdx, not_le.mpr hlt]
    rw [hx]
    rfl
  · intro hge
    rw [hEl] at hge hTok ⊢
    refine ⟨{ s with pm := { s.pm with userBalances :=
        (upd (upd s.pm.userBalances ((s.rebalanceActions actionId).user)
          (upd (s.pm.userBalances ((s.rebalanceActions actionId).user))
            ((s.rebalanceActions actionId).swaps[idx].tokenIn) 0))
          ((s.rebalanceActions actionId).user)
          (upd ((upd s.pm.userBalances ((s.rebalanceActions actionId).user)
            (upd (s.pm.userBalances ((s.rebalanceActions actionId).user))
              ((s.rebalanceActions actionId).swaps[idx].tokenIn) 0))
            ((s.rebalanceActions actionId).user))
            ((s.rebalanceActions actionId).swaps[idx].tokenOut) amt)) } },
      ?_, ?_, ?_, rfl⟩
    · simp [executeSwap, updateBalance, hAgent, hUser, hNotExec, hIdx, hge, hPolA, hPolD]
    · simp [upd, hTok]
    · simp [upd]

/-- Witness for C8 on the live fixture (leg `swapA`, `minAmountOut` 99):
an actual out of 98 reverts with the slippage error and leaves the state
unchanged, and an actual out of 99 succeeds. -/
theorem executeSwapSlippageDichotomy_witness :
    rbLive.authorizedAgents 2 = true ∧
    (rbLive.rebalanceActions aid1).executed = false ∧
    runTx rbLive (executeSwap rbLive 2 aid1 0 98) = (rbLive, some .slippageTooHigh) ∧
    callOk (executeSwap rbLive 2 aid1 0 99) = true := by
  refine ⟨by decide, by decide, ?_, ?_⟩
  · exact (executeSwapSlippageDichotomy rbLive 2 aid1 0 98 (by decide) (by decide)
      (by decide) (by decide) (by decide) (by decide) (by decide)).1 (by decide)
  · obtain ⟨s', hs, -, -, -⟩ := (executeSwapSlippageDichotomy rbLive 2 aid1 0 99
      (by decide) (by decide) (by decide) (by decide) (by decide) (by decide)
      (by decide)).2 (by decide)
    rw [hs]
    rfl

/-! ## C9: terminal actions stay terminal -/
theorem executeSwap_ok_actions (s : RBState) (caller : Nat) (actionId : ActionId)
    (idx amt : Nat) (s' : RBState)
    (h : executeSwap s caller actionId idx amt = .ok s') :
    s'.rebalanceActions = s.rebalanceActions := by
  simp only [executeSwap] at h
  split_ifs at h
  all_goals try exact Except.noConfusion h
  cases h1 : updateBalance s.pm s.rbAddress (s.rebalanceActions actionId).user
      ((s.rebalanceActions actionId).swaps.getD idx swap0).tokenIn 0 with
  | error e =>
    rw [h1] at h
    exact Except.noConfusion h
  | ok pm1 =>
    simp only [h1] at h
    cases h2 : updateBalance pm1 s.rbAddress (s.rebalanceActions actionId).user
        ((s.rebalanceActions actionId).swaps.getD idx swap0).tokenOut amt with
    | error e =>
      rw [h2] at h
      exact Except.noConfusion h
    | ok pm2 =>
      rw [h2] at h
      injection h with hp
      rw [← hp]

theorem executeBridge_ok_actions (s : RBState) (caller : Nat) (actionId : ActionId)
    (idx amt : Nat) (s' : RBState)
    (h : executeBridge s caller actionId idx amt = .ok s') :
    s'.rebalanceActions = s.rebalanceActions := by
  simp only [executeBridge] at h
  split_ifs at h
  all_goals try exact Except.noConfusion h
  cases h1 : updateBalance s.pm s.rbAddress (s.rebalanceActions actionId).user
      ((s.rebalanceActions actionId).bridges.getD idx bridge0).token amt with
  | error e =>
    rw [h1] at h
    exact Except.noConfusion h
  | ok pm1 =>
    rw [h1] at h
    injection h with hp
    rw [← hp]

theorem complete_ok_spec (s : RBState) (caller : Nat) (actionId : ActionId)
    (now : Nat) (s' : RBState)
    (h : completeRebalanceAction s caller actionId now = .ok s') :
    s'.rebalanceActions =
      (upd s.rebalanceActions actionId
        { s.rebalanceActions actionId with executed := true }) ∧
    (s.rebalanceActions actionId).user ≠ 0 := by
  simp only [completeRebalanceAction] at h
  split_ifs at h with g1 g2 g3
  all_goals try exact Except.noConfusion h
  cases hx : executeRebalance s.pm s.rbAddress (s.rebalanceActions actionId).user
      (s.rebalanceActions actionId).totalValue now with
  | error e =>
    rw [hx] at h
    exact Except.noConfusion h
  | ok pm' =>
    rw [hx] at h
    injection h with hp
    exact ⟨by rw [← hp], g2⟩

theorem pause_ok_actions (s : RBState) (caller : Nat) (actionId : ActionId)
    (s' : RBState) (h : emergencyPause s caller actionId = .ok s') :
    s'.rebalanceActions =
      (upd s.rebalanceActions actionId
        { s.rebalanceActions actionId with executed := true }) := by
  simp only [emergencyPause] at h
  split_ifs at h
  all_goals try exact Except.noConfusion h
  injection h with hp
  rw [← hp]

theorem executeSwap_fails_terminal (s : RBState) (caller : Nat) (actionId : ActionId)
    (idx amt : Nat) (h : (s.rebalanceActions actionId).executed = true) :
    ∀ s', executeSwap s caller actionId idx amt ≠ .ok s' := by
  intro s' hok
  simp only [executeSwap] at hok
  split_ifs at hok
  all_goals first
    | exact Except.noConfusion hok
    | exact absurd h (by assumption)

theorem executeBridge_fails_terminal (s : RBState) (caller : Nat) (actionId : ActionId)
    (idx amt : Nat) (h : (s.rebalanceActions actionId).executed = true) :
    ∀ s', executeBridge s caller actionId idx amt ≠ .ok s' := by
  intro s' hok
  simp only [executeBridge] at hok
  split_ifs at hok
  all_goals first
    | exact Except.noConfusion hok
    | exact absurd h (by assumption)

theorem complete_fails_terminal (s : RBState) (caller : Nat) (actionId : ActionId)
    (now : Nat) (h : (s.rebalanceActions actionId).executed = true) :
    ∀ s', completeRebalanceAction s caller actionId now ≠ .ok s' := by
  intro s' hok
  simp only [completeRebalanceAction] at hok
  split_ifs at hok
  all_goals first
    | exact Except.noConfusion hok
    | exact absurd h (by assumption)

theorem execStep_preserves_executed (s : RBState) (id : ActionId)
    (h : (s.rebalanceActions id).executed = true) (c : ExecCall) :
    ((execStep s c).rebalanceActions id).executed = true := by
  cases c with
  | swap caller actionId idx amt =>
    simp only [execStep]
    cases hr : executeSwap s caller actionId idx amt with
    | error e => simp [runTx, h]
    | ok s' =>
      simp only [runTx]
      rw [executeSwap_ok_actions s caller actionId idx amt s' hr]
      exact h
  | bridge caller actionId idx amt =>
    simp only [execStep]
    cases hr : executeBridge s caller actionId idx amt with
    | error e => simp [runTx, h]
    | ok s' =>
      simp only [runTx]
      rw [executeBridge_ok_actions s caller actionId idx amt s' hr]
      exact h
  | complete caller actionId now =>
    simp only [execStep]
    cases hr : completeRebalanceAction s caller actionId now with
    | error e => simp [runTx, h]
    | ok s' =>
      simp only [runTx]
      rw [(complete_ok_spec s caller actionId now s' hr).1]
      by_cases he : id = actionId
      · subst he
        simp [upd]
      · simp [upd, he, h]
  | pause caller actionId =>
    simp only [execStep]
    cases hr : emergencyPause s caller actionId with
    | error e => simp [runTx, h]
    | ok s' =>
      simp only [runTx]
      rw [pause_ok_actions s caller actionId s' hr]
      by_cases he : id = actionId
      · subst he
        simp [upd]
      · simp [upd, he, h]

theorem execTrace_preserves_executed (id : ActionId) :
    ∀ (cs : List ExecCall) (s : RBState), (s.rebalanceActions id).executed = true →
      ((cs.foldl execStep s).rebalanceActions id).executed = true := by
  intro cs
  induction cs with
  | nil => intro s h; exact h
  | cons c rest ih =>
    intro s h
    exact ih (execStep s c) (execStep_preserves_executed s id h c)

/-- C9 -- Once an action's `executed` flag is true (set by completion or
by emergency pause), it stays true across every further sequence of leg
executions, completions and pauses, and no `executeSwap`,
`executeBridge` or `completeRebalanceAction` call on that id can succeed
again; in particular after a successful `completeRebalanceAction` a
second, agent-authorized completion of the same id reverts with the
already-executed state error and the transaction changes nothing — the
portfolio's `lastRebalance` stamp included. -/
theorem terminalActionsAreFinal :
    (∀ (s : RBState) (id : ActionId), (s.rebalanceActions id).executed = true →
      (∀ cs : List ExecCall, ((cs.foldl execStep s).rebalanceActions id).executed = true)
      ∧ (∀ caller idx amt s', executeSwap s caller id idx amt ≠ .ok s')
      ∧ (∀ caller idx amt s', executeBridge s caller id idx amt ≠ .ok s')
      ∧ (∀ caller now s', completeRebalanceAction s caller id now ≠ .ok s'))
    ∧ (∀ (s : RBState) (caller : Nat) (id : ActionId) (now : Nat) (s' : RBState),
        completeRebalanceAction s caller id now = .ok s' →
        (s'.rebalanceActions id).executed = true ∧
        (∀ caller' now', s'.authorizedAgents caller' = true →
          runTx s' (completeRebalanceAction s' caller' id now') =
            (s', some .actionAlreadyExecuted))) := by
  constructor
  · intro s id h
    exact ⟨fun cs => execTrace_preserves_executed id cs s h,
      fun caller idx amt => executeSwap_fails_terminal s caller id idx amt h,
      fun caller idx amt => executeBridge_fails_terminal s caller id idx amt h,
      fun caller now => complete_fails_terminal s caller id now h⟩
  · intro s caller id now s' hOk
    obtain ⟨hacts, hUser⟩ := complete_ok_spec s caller id now s' hOk
    have hexec : (s'.rebalanceActions id).executed = true := by
      rw [hacts]
      simp [upd]
    refine ⟨hexec, ?_⟩
    intro caller' now' hAg
    have hUser' : (s'.rebalanceActions id).user ≠ 0 := by
      rw [hacts]
      simpa [upd] using hUser
    have hx : completeRebalanceAction s' caller' id now' = .error .actionAlreadyExecuted := by
      simp [completeRebalanceAction, hAg, hUser', hexec]
    rw [hx]
    rfl

/-- Witness for C9: completing `aid1` once succeeds; the second
agent-authorized completion reverts with the already-executed state error
and leaves the state (hence `lastRebalance`) unchanged, and can never
return ok. -/
theorem terminalActionsAreFinal_witness :
    completeRebalanceAction rbLive 2 aid1 4000 = .ok c9s1 ∧
    (c9s1.rebalanceActions aid1).executed = true ∧
    runTx c9s1 (completeRebalanceAction c9s1 2 aid1 8000) =
      (c9s1, some .actionAlreadyExecuted) ∧
    completeRebalanceAction c9s1 2 aid1 8000 ≠ .ok c9s1 := by
  have h1 : completeRebalanceAction rbLive 2 aid1 4000 = .ok c9s1 := rfl
  have h2 := terminalActionsAreFinal.2 rbLive 2 aid1 4000 c9s1 h1
  refine ⟨h1, h2.1, h2.2 2 8000 ?_, ?_⟩
  · decide
  · exact (terminalActionsAreFinal.1 c9s1 aid1 h2.1).2.2.2 2 8000 c9s1

end IgnisX
